import Mathlib

/-!
Shallow embedding of the conversation/generation state machine of
`src/Home.tsx` (Qbit Architect), together with proofs settling the
specification claims about it.

Text values are modelled as `List Char` so that the string-processing
functions (`split(',')`, the `/:(.*?);/` regex, `trim`) can be embedded
by structural recursion that mirrors the JavaScript semantics.
-/

set_option maxRecDepth 4096

namespace QbitArchitect

/-- Text values (JavaScript strings) as lists of characters. -/
abbrev Str := List Char

/-! ## Image Codec (`dataURLtoBase64`, Home.tsx lines 307-313, and the
    data-URL construction at lines 478 and 945) -/

/-- Characters that the JavaScript regex metacharacter `.` does not match
(line terminators). -/
def isLineTerminator (c : Char) : Bool :=
  c = '\n' || c = '\r' || c = '\u2028' || c = '\u2029'

/-- The lazy part `(.*?);` of the regex `/:(.*?);/` anchored at a fixed
start position: captures the shortest run of non-terminator characters
ending just before a `;`, or fails. -/
def lazyCapture : List Char → Option (List Char)
  | [] => none
  | c :: rest =>
    if c = ';' then some []
    else if isLineTerminator c then none
    else (lazyCapture rest).map (fun tok => c :: tok)

/-- `JavaScript s.match(/:(.*?);/)`: scan start positions left to right;
at a `:` try the lazy capture, on failure keep scanning. Returns the
first capture group on success. -/
def matchColonSemi : List Char → Option (List Char)
  | [] => none
  | c :: rest =>
    if c = ':' then
      match lazyCapture rest with
      | some tok => some tok
      | none => matchColonSemi rest
    else matchColonSemi rest

/-- JavaScript `s.split(',')`: all segments between commas, empty
segments included; never returns an empty list. -/
def splitOnComma : List Char → List (List Char)
  | [] => [[]]
  | c :: rest =>
    if c = ',' then [] :: splitOnComma rest
    else
      match splitOnComma rest with
      | seg :: segs => (c :: seg) :: segs
      | [] => [[c]]

/-- `dataURLtoBase64` (Home.tsx 307-313): split the data URL on commas;
with fewer than two segments return the empty pair; otherwise extract
the MIME token of the header via `/:(.*?);/`, returning the empty pair
when the match fails.  Total: the Lean function is structurally
recursive, mirroring that the JavaScript function never throws. -/
def dataURLtoBase64 (dataurl : Str) : Str × Str :=
  match splitOnComma dataurl with
  | a :: b :: _ =>
    (match matchColonSemi a with
     | some tok => (tok, b)
     | none => ([], []))
  | _ => ([], [])

/-- Construction of a data-URL handle from a MIME type and base64 payload,
`data:<mimeType>;base64,<data>` (Home.tsx line 478 and line 945). -/
def encodeDataURL (mimeType data : Str) : Str :=
  ("data:").data ++ mimeType ++ (";base64,").data ++ data

/-! ## Data model (Home.tsx 59-94) -/

/-- `ChatMessage.role`. -/
inductive Role where
  | user
  | model
deriving DecidableEq, Repr

/-- The `Part` type (Home.tsx 60-64): an object with optional fields. -/
structure Part where
  text : Option Str := none
  plans2D : Option (List Str) := none
  plan3D : Option Str := none
deriving DecidableEq, Repr

/-- The `ChatMessage` type (Home.tsx 66-69). -/
structure ChatMessage where
  role : Role
  parts : List Part
deriving DecidableEq, Repr

/-- Welcome text of the fixed greeting turn (Home.tsx 76). -/
def welcomeText : Str :=
  ("Welcome to Qbit Architect! I can design any building you can imagine. Describe what you\u0027d like to create, or upload an image for inspiration. For example, try \u0027Design a modern 3-story office building with a rooftop garden.\u0027").data

/-- `DEFAULT_CHAT` (Home.tsx 71-80): the single fixed welcome turn. -/
def DEFAULT_CHAT : List ChatMessage :=
  [{ role := Role.model, parts := [{ text := some welcomeText }] }]

/-! ## JavaScript `String.prototype.trim` -/

/-- JavaScript whitespace characters recognised by `trim` (the common
ones; the source never feeds exotic Unicode spaces into `trim`). -/
def isJSSpace (c : Char) : Bool :=
  c = ' ' || c = '\t' || c = '\n' || c = '\r' || c = '\u000B' ||
  c = '\u000C' || c = '\u00A0' || c = '\uFEFF' || c = '\u2028' || c = '\u2029'

/-- `s.trim()`: drop leading and trailing whitespace. -/
def trimStr (s : Str) : Str :=
  ((s.dropWhile isJSSpace).reverse.dropWhile isJSSpace).reverse

/-! ## Generation request model (the `@google/genai` call surface) -/

/-- The `mode` state (Home.tsx 221). -/
inductive Mode where
  | architect
  | chat
deriving DecidableEq, Repr

/-- An outgoing request part (`GenaiPart`): `{text}` or
`{inlineData: {mimeType, data}}`. -/
inductive GPart where
  | text (t : Str)
  | inlineData (mimeType data : Str)
deriving DecidableEq, Repr

/-- Response modalities requested from the backend. -/
inductive Modality where
  | image
  | text
deriving DecidableEq, Repr

/-- First sentence of the `architect` system instruction (Home.tsx
432-450); the remainder of the constant prompt text carries no state
semantics and is elided. -/
def architectSystemInstruction : Str :=
  ("You are Qbit Architect, a world-class AI specializing in generating architectural designs.").data

/-- First sentence of the `chat` system instruction (Home.tsx 451-456);
remainder elided as above. -/
def chatSystemInstruction : Str :=
  ("You are Qbit, a helpful and creative AI assistant specializing in architectural design.").data

/-- `mode === 'architect' ? architectSystemInstruction : chatSystemInstruction`
(Home.tsx 458). -/
def systemInstructionFor : Mode → Str
  | Mode.architect => architectSystemInstruction
  | Mode.chat => chatSystemInstruction

/-- The request handed to `ai.models.generateContent` (Home.tsx 460-467):
model name, `contents: { parts: geminiParts }`, system instruction and
response modalities. -/
structure GenRequest where
  model : Str
  parts : List GPart
  systemInstruction : Str
  responseModalities : List Modality
deriving DecidableEq, Repr

/-- One part of a backend response candidate: text or inline image. -/
inductive RespPart where
  | text (t : Str)
  | inlineData (mimeType data : Str)
deriving DecidableEq, Repr

/-- Outcome of the asynchronous `generateContent` call: either the
promise resolves with a candidate list, or it rejects (throws). -/
inductive GenOutcome where
  | ok (candidates : List (List RespPart))
  | threw
deriving DecidableEq, Repr

/-! ## Application state (Home.tsx 212-226) -/

/-- The `useState` cells of the `Home` component that the conversation
state machine reads or writes.  (Purely presentational cells such as
`loadingMessage` and `isDesktop` are omitted: no transition modelled
here depends on them.) -/
structure AppState where
  chatHistory : List ChatMessage
  inputValue : Str
  isLoading : Bool
  showErrorModal : Bool
  errorMessage : Str
  uploadedImage : Option Str
  mode : Mode
  editingMessageIndex : Option Nat
  replyingToMessage : Option ChatMessage
  exploreMessage : Option ChatMessage
  editingPlan : Option ChatMessage
deriving DecidableEq, Repr

/-- `handleClearChat` (Home.tsx 281-289): resets the log to
`DEFAULT_CHAT`, clears the edit/reply/explore/plan-edit intents, empties
the input and restores `architect` mode.  (It does not touch
`uploadedImage`, `isLoading` or the error-modal state.) -/
def handleClearChat (s : AppState) : AppState :=
  { s with
    chatHistory := DEFAULT_CHAT
    editingMessageIndex := none
    replyingToMessage := none
    exploreMessage := none
    editingPlan := none
    inputValue := []
    mode := Mode.architect }

/-! ## Outgoing parts assembly (Home.tsx 362-423) -/

/-- The inline-image push pattern (Home.tsx 393-397, 402-411): decode a
data URL and push an `inlineData` part only when both the MIME type and
the payload are nonempty (JavaScript truthiness of `mimeType && data`);
otherwise the image is silently omitted. -/
def imagePartOfDataURL (url : Str) : List GPart :=
  let md := dataURLtoBase64 url
  if md.1 ≠ [] ∧ md.2 ≠ [] then [GPart.inlineData md.1 md.2] else []

/-- For a reply (Home.tsx 400-413): all images of the replied-to message,
`plans2D` entries first within each part, then its `plan3D`. -/
def replyImageParts (m : ChatMessage) : List GPart :=
  m.parts.flatMap (fun p =>
    (match p.plans2D with
     | some l => l.flatMap imagePartOfDataURL
     | none => []) ++
    (match p.plan3D with
     | some u => if u ≠ [] then imagePartOfDataURL u else []
     | none => []))

/-- `geminiParts` for a non-editing send (Home.tsx 366-368, 391-413):
text part first (when nonempty), then the decoded uploaded image (when
present and decodable), then the reply images. -/
def buildGeminiParts (userMessageText : Str) (uploadedImage : Option Str)
    (replying : Option ChatMessage) : List GPart :=
  (if userMessageText ≠ [] then [GPart.text userMessageText] else []) ++
  (match uploadedImage with
   | some img => imagePartOfDataURL img
   | none => []) ++
  (match replying with
   | some m => replyImageParts m
   | none => [])

/-- `userParts` of the new user turn (Home.tsx 415-418): a text part when
the text is nonempty, then — when an upload is present — a part whose
`plans2D` field is the one-element list holding the uploaded handle. -/
def newUserParts (userMessageText : Str) (uploadedImage : Option Str) : List Part :=
  (if userMessageText ≠ [] then [{ text := some userMessageText }] else []) ++
  (match uploadedImage with
   | some img => [{ plans2D := some [img] }]
   | none => [])

/-! ## Edit-regeneration (Home.tsx 370-389) -/

/-- The in-place part rewrite of the edited turn (Home.tsx 375-385):
every part with a `text` field gets its text replaced by the new text;
when no part has a text field, a fresh text part is unshifted to the
front. -/
def applyEditToParts (parts : List Part) (t : Str) : List Part :=
  let mapped := parts.map (fun p => if p.text.isSome then { p with text := some t } else p)
  if parts.any (fun p => p.text.isSome) then mapped
  else { text := some t } :: mapped

/-- Replace the element at index `k` (out-of-range indices leave the list
unchanged, mirroring `updatedHistory[editIndex]` access on a valid
index). -/
def modifyAt (l : List ChatMessage) (k : Nat) (f : ChatMessage → ChatMessage) :
    List ChatMessage :=
  match l, k with
  | [], _ => []
  | x :: xs, 0 => f x :: xs
  | x :: xs, Nat.succ n => x :: modifyAt xs n f

/-- `applyEdit` (Home.tsx 370-389): rewrite the text of turn `k` and
truncate the log to end at `k` inclusive (`slice(0, editIndex + 1)`). -/
def applyEdit (history : List ChatMessage) (k : Nat) (t : Str) : List ChatMessage :=
  (modifyAt history k (fun m => { m with parts := applyEditToParts m.parts t })).take (k + 1)

/-- `historyForGeneration` (Home.tsx 362, 388, 421): the truncated edited
log during an edit-regeneration, otherwise the log with the new user
turn appended. -/
def historyForGeneration (s : AppState) : List ChatMessage :=
  let t := trimStr s.inputValue
  match s.editingMessageIndex with
  | some k => applyEdit s.chatHistory k t
  | none => s.chatHistory ++ [{ role := Role.user, parts := newUserParts t s.uploadedImage }]

/-! ## Response parsing and bundle assembly (Home.tsx 469-504) -/

/-- Bundle assembly (Home.tsx 490-500): no image gives no bundle part; a
single image is the sole 2D plan; with two or more images the last is
popped as the 3D render and all remaining are the 2D floors in order. -/
def assemble (imageResponses : List Str) : List Part :=
  if imageResponses.length = 0 then []
  else if imageResponses.length = 1 then [{ plans2D := some imageResponses }]
  else [{ plans2D := some imageResponses.dropLast, plan3D := imageResponses.getLast? }]

/-- Fallback text pushed when the parsed response holds neither text nor
images (Home.tsx 503). -/
def noDesignText : Str :=
  ("I apologize, but I couldn\u0027t generate a design for that request. Could you please try rephrasing it?").data

/-- Parsing of the first candidate (Home.tsx 473-504): concatenate the
nonempty text parts, collect the inline images re-encoded as data URLs,
run bundle assembly, then fall back to the canned text when nothing was
produced. -/
def parseResponse (parts : List RespPart) : List Part :=
  let textResponse := parts.foldl
    (fun acc p => match p with
      | RespPart.text t => if t ≠ [] then acc ++ t else acc
      | RespPart.inlineData _ _ => acc) []
  let imageResponses := parts.flatMap
    (fun p => match p with
      | RespPart.inlineData m d => [encodeDataURL m d]
      | RespPart.text _ => [])
  let base :=
    (if textResponse ≠ [] then [({ text := some textResponse } : Part)] else []) ++
    assemble imageResponses
  if base = [] then [{ text := some noDesignText }] else base

/-- The fixed apology appended on a failed generation (Home.tsx 523). -/
def apologyText : Str :=
  ("I encountered an error and couldn\u0027t complete your request. Please try again.").data

/-- Error-dialog text set on a failed generation (Home.tsx 516). -/
def genErrorText : Str :=
  ("Sorry, something went wrong while generating the design. Please check the console for details and try again.").data

/-- The apology model turn (Home.tsx 519-525). -/
def errorTurn : ChatMessage :=
  { role := Role.model, parts := [{ text := some apologyText }] }

/-! ## `handleSendMessage` (Home.tsx 353-529) -/

/-- The complete send flow as a pure transition: from a pre-send state
and the backend call outcome to the post-send state, paired with the
request issued (`none` when the guard rejected the send and no backend
call was made). -/
def handleSendMessage (s : AppState) (outcome : GenOutcome) :
    AppState × Option GenRequest :=
  let userMessageText := trimStr s.inputValue
  let isEditing := s.editingMessageIndex.isSome
  if (userMessageText = [] ∧ s.uploadedImage = none ∧ isEditing = false) ∨
      s.isLoading = true then
    (s, none)
  else
    let geminiParts :=
      if isEditing then
        (if userMessageText ≠ [] then [GPart.text userMessageText] else [])
      else buildGeminiParts userMessageText s.uploadedImage s.replyingToMessage
    let hist := historyForGeneration s
    let s1 : AppState :=
      { s with
        chatHistory := hist
        isLoading := true
        inputValue := []
        uploadedImage := none
        editingMessageIndex := none
        replyingToMessage := none }
    let req : GenRequest :=
      { model := ("gemini-2.5-flash-image-preview").data
        parts := geminiParts
        systemInstruction := systemInstructionFor s.mode
        responseModalities := [Modality.image, Modality.text] }
    match outcome with
    | GenOutcome.threw =>
      ({ s1 with
          chatHistory := s1.chatHistory ++ [errorTurn]
          showErrorModal := true
          errorMessage := genErrorText
          isLoading := false }, some req)
    | GenOutcome.ok candidates =>
      match candidates with
      | [] =>
        -- `throw new Error("Received an empty response...")` is caught by
        -- the same catch block (Home.tsx 482-483, 514-525).
        ({ s1 with
            chatHistory := s1.chatHistory ++ [errorTurn]
            showErrorModal := true
            errorMessage := genErrorText
            isLoading := false }, some req)
      | first :: _ =>
        ({ s1 with
            chatHistory := s1.chatHistory ++
              [{ role := Role.model, parts := parseResponse first }]
            isLoading := false }, some req)

/-! ## Annotate-and-Revise (`EditPlanModal`, Home.tsx 794-1049) -/

/-- A canvas raster snapshot (`ImageData`); only its identity matters to
the modelled transitions. -/
abbrev CanvasSnapshot := List Nat

/-- The `EditPlanModal` state cells relevant to submission. -/
structure EditPlanState where
  isLoading : Bool
  errorText : Option Str
  prompt : Str
  history : List CanvasSnapshot
  canvasReady : Bool
deriving DecidableEq, Repr

/-- The `disabled` predicate of the submit control (Home.tsx 1036):
`isLoading || !prompt.trim() || history.length <= 1`. -/
def submitDisabled (st : EditPlanState) : Bool :=
  st.isLoading || decide (trimStr st.prompt = []) || decide (st.history.length ≤ 1)

/-- `handleApplyPlanEdits` (Home.tsx 343-351): append the revised parts
as a brand-new model turn when nonempty. -/
def handleApplyPlanEdits (chat : List ChatMessage) (newModelParts : List Part) :
    List ChatMessage :=
  if newModelParts.length > 0 then
    chat ++ [{ role := Role.model, parts := newModelParts }]
  else chat

/-- `handleSubmit` of `EditPlanModal` (Home.tsx 901-970) as a pure
transition: given the modal state, the flattened annotated canvas image
and the backend outcome, produce the new modal state, the request issued
(if any), and the revised parts handed to `onApplyEdits` (if any). -/
def editPlanHandleSubmit (st : EditPlanState) (annotatedImage : Str)
    (outcome : GenOutcome) : EditPlanState × Option GenRequest × Option (List Part) :=
  if st.canvasReady = false ∨ trimStr st.prompt = [] then
    ({ st with errorText := some (("Please add a drawing and a description of your changes.").data) },
      none, none)
  else
    let md := dataURLtoBase64 annotatedImage
    if md.1 = [] ∨ md.2 = [] then
      ({ st with
          isLoading := false
          errorText := some (("Failed to process annotated image.").data) }, none, none)
    else
      let req : GenRequest :=
        { model := ("gemini-2.5-flash-image-preview").data
          parts := [GPart.inlineData md.1 md.2, GPart.text st.prompt]
          systemInstruction := ("You are an AI Architect revising a design.").data
          responseModalities := [Modality.image, Modality.text] }
      match outcome with
      | GenOutcome.threw =>
        ({ st with
            isLoading := false
            errorText := some (("An unexpected error occurred during revision.").data) },
          some req, none)
      | GenOutcome.ok candidates =>
        match candidates with
        | [] =>
          ({ st with
              isLoading := false
              errorText := some (("Received an empty response from the model.").data) },
            some req, none)
        | first :: _ =>
          let textResponse := first.foldl
            (fun acc p => match p with
              | RespPart.text t => if t ≠ [] then acc ++ t else acc
              | RespPart.inlineData _ _ => acc) []
          let imageResponses := first.flatMap
            (fun p => match p with
              | RespPart.inlineData m d => [encodeDataURL m d]
              | RespPart.text _ => [])
          if imageResponses.length ≥ 2 then
            let modelParts :=
              (if textResponse ≠ [] then [({ text := some textResponse } : Part)] else []) ++
              [{ plans2D := some imageResponses.dropLast, plan3D := imageResponses.getLast? }]
            ({ st with isLoading := false }, some req, some modelParts)
          else
            ({ st with
                isLoading := false
                errorText := some (("The model did not return the required 2D and 3D plans.").data) },
              some req, none)

/-- A click on the `Generate Revised Plan` control: a disabled control
(Home.tsx 1034-1040) fires nothing; otherwise `handleSubmit` runs and a
successful result is appended to the conversation via
`handleApplyPlanEdits`. -/
def editPlanSubmitClick (chat : List ChatMessage) (st : EditPlanState)
    (annotatedImage : Str) (outcome : GenOutcome) :
    List ChatMessage × EditPlanState × Option GenRequest :=
  if submitDisabled st then (chat, st, none)
  else
    match editPlanHandleSubmit st annotatedImage outcome with
    | (st2, req, some parts) => (handleApplyPlanEdits chat parts, st2, req)
    | (st2, req, none) => (chat, st2, req)

/-! ## Specification-side definitions (for comparison with the code) -/

/-- Replace the text of the first part carrying a text field; `none`
when no part has one.  Follows the wording of the specification for
`applyEdit`, which locates the first text part of the addressed Turn
and replaces its content. -/
def replaceFirstText : List Part → Str → Option (List Part)
  | [], _ => none
  | p :: ps, t =>
    if p.text.isSome then some ({ p with text := some t } :: ps)
    else (replaceFirstText ps t).map (fun l => p :: l)

/-- The edited-turn part list as the specification describes it: replace
only the first text part, or insert a fresh text part at the front when
none exists, preserving existing parts. -/
def specEditTurnParts (parts : List Part) (t : Str) : List Part :=
  match replaceFirstText parts t with
  | some l => l
  | none => { text := some t } :: parts

/-- `applyEdit` as the specification describes it: spec-side edit of
turn `k`, then truncation to end at `k` inclusive. -/
def specApplyEdit (history : List ChatMessage) (k : Nat) (t : Str) : List ChatMessage :=
  (modifyAt history k (fun m => { m with parts := specEditTurnParts m.parts t })).take (k + 1)

/-- Predicate on decoder inputs: the header contains a MIME token, i.e.
a `:` followed (through non-terminator characters) by a `;` — exactly
when the regex `/:(.*?);/` can match. -/
def headerHasMimeToken (l : Str) : Prop :=
  ∃ pre mid post : Str, l = pre ++ ':' :: mid ++ ';' :: post ∧
    ∀ c ∈ mid, c ≠ ';' ∧ isLineTerminator c = false

/-- Characters a MIME type string may not contain (set off by the data
URL syntax): the `;`/`,` separators and regex-opaque line terminators. -/
def mimeTypeOK (m : Str) : Prop :=
  m ≠ [] ∧ ∀ c ∈ m, c ≠ ';' ∧ c ≠ ',' ∧ isLineTerminator c = false

/-- Characters of the base64 alphabet (plus padding). -/
def isBase64Char (c : Char) : Bool :=
  c.isAlphanum || c = '+' || c = '/' || c = '='

/-- A nonempty string over the base64 alphabet. -/
def base64PayloadOK (p : Str) : Prop :=
  p ≠ [] ∧ ∀ c ∈ p, isBase64Char c = true

/-! ## Concrete states used by counterexamples, code-bug evaluations and
witnesses -/

/-- A baseline fresh state: welcome log, nothing pending, not busy. -/
def freshState : AppState :=
  { chatHistory := DEFAULT_CHAT
    inputValue := []
    isLoading := false
    showErrorModal := false
    errorMessage := []
    uploadedImage := none
    mode := Mode.architect
    editingMessageIndex := none
    replyingToMessage := none
    exploreMessage := none
    editingPlan := none }

/-- A state holding an uploaded image, used to test `handleClearChat`. -/
def stateWithUpload : AppState :=
  { freshState with uploadedImage := some (("data:image/png;base64,AA").data) }

/-- A state with one prior user/model exchange and a typed message,
used to inspect the request a send issues. -/
def statePriorExchange : AppState :=
  { freshState with
    chatHistory :=
      DEFAULT_CHAT ++
      [{ role := Role.user, parts := [{ text := some (("Design a cabin").data) }] },
       { role := Role.model, parts := [{ text := some (("Here is a cabin.").data) }] }]
    inputValue := ("make it bigger").data }

/-- A conversation log whose single user turn carries two text parts,
used to separate the edit rewrite of the code from the specified one. -/
def twoTextLog : List ChatMessage :=
  [{ role := Role.user,
     parts := [{ text := some (("a").data) }, { text := some (("b").data) }] }]

/-! # Theorems -/

/-- C4: bundle assembly on a one-element image sequence yields exactly
one 2D plan (the sole element) and no 3D render; on a sequence of
length `n ≥ 2` it yields the first `n - 1` elements, in order, as the
2D plans and the last element as the single 3D render. -/
theorem assemble_bundle_shape :
    (∀ x : Str, assemble [x] = [{ plans2D := some [x], plan3D := none }]) ∧
    (∀ (l : List Str) (x : Str), l ≠ [] →
      assemble (l ++ [x]) = [{ plans2D := some l, plan3D := some x }]) := by
  constructor
  · intro x
    simp [assemble]
  · intro l x hl
    have hlen : (l ++ [x]).length = l.length + 1 := by simp
    have h1 : l.length ≠ 0 := fun h => hl (List.length_eq_zero.mp h)
    simp only [assemble, hlen]
    rw [if_neg (by omega), if_neg (by omega)]
    simp [List.dropLast_concat, List.getLast?_concat]

/-- Closed instances of `assemble_bundle_shape` at concrete inputs. -/
theorem assemble_bundle_shape_witness :
    assemble [("a").data] = [{ plans2D := some [("a").data], plan3D := none }] ∧
    assemble [("a").data, ("b").data] =
      [{ plans2D := some [("a").data], plan3D := some (("b").data) }] :=
  ⟨assemble_bundle_shape.1 (("a").data),
   assemble_bundle_shape.2 [("a").data] (("b").data) (by decide)⟩

/-- C7: a send invocation while a send is already in flight (busy flag
set) is a no-op: the state — conversation log, pending intent, uploaded
image and input buffer included — is unchanged and no backend request
is issued. -/
theorem send_while_busy_noop (s : AppState) (o : GenOutcome)
    (h : s.isLoading = true) :
    (handleSendMessage s o).1 = s ∧ (handleSendMessage s o).2 = none := by
  simp [handleSendMessage, h]

/-- Closed instance of `send_while_busy_noop` at a concrete busy state. -/
theorem send_while_busy_noop_witness :
    (handleSendMessage { freshState with isLoading := true } GenOutcome.threw).1 =
      { freshState with isLoading := true } ∧
    (handleSendMessage { freshState with isLoading := true } GenOutcome.threw).2 = none :=
  send_while_busy_noop { freshState with isLoading := true } GenOutcome.threw rfl

/-- C8: an Annotate-and-Revise submission with undo history of length 1
(no strokes beyond the seed) is rejected before any backend call,
whatever the prompt: the conversation log and the modal state are
unchanged and no request is issued. -/
theorem revise_without_strokes_rejected (chat : List ChatMessage)
    (st : EditPlanState) (annot : Str) (o : GenOutcome)
    (h : st.history.length = 1) :
    editPlanSubmitClick chat st annot o = (chat, st, none) := by
  have hd : submitDisabled st = true := by
    simp [submitDisabled, h]
  simp [editPlanSubmitClick, hd]

/-- Closed instance of `revise_without_strokes_rejected`: a nonempty
prompt with a single-snapshot history still fires nothing. -/
theorem revise_without_strokes_rejected_witness :
    editPlanSubmitClick DEFAULT_CHAT
      { isLoading := false, errorText := none, prompt := ("add a door").data,
        history := [[0]], canvasReady := true }
      (("data:image/jpeg;base64,AA").data) GenOutcome.threw =
      (DEFAULT_CHAT,
       { isLoading := false, errorText := none, prompt := ("add a door").data,
         history := [[0]], canvasReady := true },
       none) :=
  revise_without_strokes_rejected DEFAULT_CHAT
    { isLoading := false, errorText := none, prompt := ("add a door").data,
      history := [[0]], canvasReady := true }
    (("data:image/jpeg;base64,AA").data) GenOutcome.threw rfl

/-- C2: the claim that clear-conversation also clears the Uploaded
Image is false — `handleClearChat` resets the log and the pending
intent but leaves `uploadedImage` untouched, exhibited at a state whose
upload is present. -/
theorem clear_chat_claim_counterexample :
    ¬ ((handleClearChat stateWithUpload).chatHistory = DEFAULT_CHAT ∧
       (handleClearChat stateWithUpload).editingMessageIndex = none ∧
       (handleClearChat stateWithUpload).replyingToMessage = none ∧
       (handleClearChat stateWithUpload).uploadedImage = none) := by
  intro hclaim
  have h := hclaim.2.2.2
  simp [handleClearChat, stateWithUpload, freshState] at h

/-- C2 (amended): clear-conversation leaves the log equal to the single
fixed welcome turn, the pending intent idle (no editing, replying,
exploring or plan-editing), the input buffer empty and the mode
`architect`; the uploaded image is left unchanged. -/
theorem clear_chat_behavior (s : AppState) :
    (handleClearChat s).chatHistory = DEFAULT_CHAT ∧
    (handleClearChat s).editingMessageIndex = none ∧
    (handleClearChat s).replyingToMessage = none ∧
    (handleClearChat s).exploreMessage = none ∧
    (handleClearChat s).editingPlan = none ∧
    (handleClearChat s).inputValue = [] ∧
    (handleClearChat s).mode = Mode.architect ∧
    (handleClearChat s).uploadedImage = s.uploadedImage := by
  simp [handleClearChat]

/-- C1: evaluation of the send flow at a state with a prior user/model
exchange in the log: the `parts` of the issued request are exactly the one
new text part — the prior turn sequence (three turns long here) is not
transmitted, although `historyForGeneration` is computed.  The request
shape holds no role-tagged turn sequence at all, so the specified
context transmission does not happen. -/
theorem send_request_omits_prior_turns :
    statePriorExchange.chatHistory.length = 3 ∧
    ((handleSendMessage statePriorExchange GenOutcome.threw).2).map GenRequest.parts =
      some [GPart.text (("make it bigger").data)] := by
  constructor
  · rfl
  · rfl

/-- C6: when the backend call of an in-flight send throws, the
conversation log grows by exactly one model turn holding only the fixed
apology text, and the error dialog flag becomes true. -/
theorem send_failure_appends_apology (s : AppState)
    (hbusy : s.isLoading = false)
    (hguard : trimStr s.inputValue ≠ [] ∨ s.uploadedImage ≠ none ∨
      s.editingMessageIndex ≠ none) :
    (handleSendMessage s GenOutcome.threw).1.chatHistory =
      historyForGeneration s ++ [errorTurn] ∧
    (handleSendMessage s GenOutcome.threw).1.chatHistory.length =
      (historyForGeneration s).length + 1 ∧
    (handleSendMessage s GenOutcome.threw).1.showErrorModal = true ∧
    errorTurn = { role := Role.model, parts := [{ text := some apologyText }] } := by
  have hcond : ¬ ((trimStr s.inputValue = [] ∧ s.uploadedImage = none ∧
      s.editingMessageIndex.isSome = false) ∨ s.isLoading = true) := by
    rintro (⟨g1, g2, g3⟩ | g)
    · rcases hguard with hg | hg | hg
      · exact hg g1
      · exact hg g2
      · exact hg (Option.not_isSome_iff_eq_none.mp (by simp [g3]))
    · rw [hbusy] at g
      exact Bool.false_ne_true g
  unfold handleSendMessage
  rw [if_neg hcond]
  refine ⟨rfl, by simp, rfl, rfl⟩

/-- Closed instance of `send_failure_appends_apology` at a state with a
typed message. -/
theorem send_failure_appends_apology_witness :
    (handleSendMessage { freshState with inputValue := ("hi").data }
        GenOutcome.threw).1.chatHistory =
      historyForGeneration { freshState with inputValue := ("hi").data } ++
        [errorTurn] ∧
    (handleSendMessage { freshState with inputValue := ("hi").data }
        GenOutcome.threw).1.chatHistory.length =
      (historyForGeneration { freshState with inputValue := ("hi").data }).length + 1 ∧
    (handleSendMessage { freshState with inputValue := ("hi").data }
        GenOutcome.threw).1.showErrorModal = true ∧
    errorTurn = { role := Role.model, parts := [{ text := some apologyText }] } :=
  send_failure_appends_apology { freshState with inputValue := ("hi").data }
    rfl (Or.inl (by decide))

/-- C9: a non-editing send with an uploaded image appends a user turn
whose final part stores the upload in the `plans2D` field as the
one-element sequence of the uploaded handle (text and `plan3D` fields
empty, no separate upload-preview shape), and that turn becomes part of
the conversation log. -/
theorem upload_stored_as_plans2D (s : AppState) (img : Str) (o : GenOutcome)
    (h1 : s.isLoading = false) (h2 : s.editingMessageIndex = none)
    (h3 : s.uploadedImage = some img) :
    ∃ textParts : List Part,
      historyForGeneration s =
        s.chatHistory ++
          [{ role := Role.user,
             parts := textParts ++
               [{ text := none, plans2D := some [img], plan3D := none }] }] ∧
      (∀ p ∈ textParts, p.plans2D = none ∧ p.plan3D = none) ∧
      ∃ tail, (handleSendMessage s o).1.chatHistory = historyForGeneration s ++ tail := by
  refine ⟨if trimStr s.inputValue ≠ [] then [{ text := some (trimStr s.inputValue) }] else [],
    ?_, ?_, ?_⟩
  · simp only [historyForGeneration, h2, newUserParts, h3]
  · intro p hp
    by_cases ht : trimStr s.inputValue ≠ []
    · rw [if_pos ht] at hp
      simp only [List.mem_singleton] at hp
      subst hp
      exact ⟨rfl, rfl⟩
    · rw [if_neg ht] at hp
      exact absurd hp (List.not_mem_nil p)
  · have hcond : ¬ ((trimStr s.inputValue = [] ∧ s.uploadedImage = none ∧
        s.editingMessageIndex.isSome = false) ∨ s.isLoading = true) := by
      rintro (⟨_, g2, _⟩ | g)
      · rw [h3] at g2
        exact Option.some_ne_none img g2
      · rw [h1] at g
        exact Bool.false_ne_true g
    unfold handleSendMessage
    rw [if_neg hcond]
    match o with
    | GenOutcome.threw => exact ⟨[errorTurn], rfl⟩
    | GenOutcome.ok [] => exact ⟨[errorTurn], rfl⟩
    | GenOutcome.ok (first :: _) =>
      exact ⟨[{ role := Role.model, parts := parseResponse first }], rfl⟩

/-- Closed instance of `upload_stored_as_plans2D` at a fresh state with
an uploaded image and empty input. -/
theorem upload_stored_as_plans2D_witness :
    ∃ textParts : List Part,
      historyForGeneration stateWithUpload =
        stateWithUpload.chatHistory ++
          [{ role := Role.user,
             parts := textParts ++
               [{ text := none,
                  plans2D := some [("data:image/png;base64,AA").data],
                  plan3D := none }] }] ∧
      (∀ p ∈ textParts, p.plans2D = none ∧ p.plan3D = none) ∧
      ∃ tail, (handleSendMessage stateWithUpload GenOutcome.threw).1.chatHistory =
        historyForGeneration stateWithUpload ++ tail :=
  upload_stored_as_plans2D stateWithUpload (("data:image/png;base64,AA").data)
    GenOutcome.threw rfl rfl rfl

/-- Replacing the element at a valid index and truncating one past it
keeps the prefix and ends with the rewritten element. -/
theorem modifyAt_take (f : ChatMessage → ChatMessage) :
    ∀ (l : List ChatMessage) (k : Nat) (h : k < l.length),
    (modifyAt l k f).take (k + 1) = l.take k ++ [f (l.get ⟨k, h⟩)]
  | [], k, h => absurd h (by simp)
  | x :: xs, 0, _ => by simp [modifyAt]
  | x :: xs, Nat.succ n, h => by
    have ih := modifyAt_take f xs n (by simpa using Nat.lt_of_succ_lt_succ h)
    simp only [modifyAt, List.take_succ_cons, ih, List.get]
    rfl

/-- C3: the claim that `applyEdit` rewrites only the first text part of
the addressed turn is false: on a user turn holding two text parts the
code rewrites both, where the specified edit (`specApplyEdit`) keeps
the second text part intact. -/
theorem applyEdit_claim_counterexample :
    applyEdit twoTextLog 0 (("t").data) =
      [{ role := Role.user,
         parts := [{ text := some (("t").data) }, { text := some (("t").data) }] }] ∧
    specApplyEdit twoTextLog 0 (("t").data) =
      [{ role := Role.user,
         parts := [{ text := some (("t").data) }, { text := some (("b").data) }] }] ∧
    applyEdit twoTextLog 0 (("t").data) ≠ specApplyEdit twoTextLog 0 (("t").data) := by
  refine ⟨rfl, rfl, ?_⟩
  decide

/-- C3 (amended): `applyEdit k t` on a log of length `L > k` addressing
a user turn yields a log of length exactly `k + 1`: the first `k` turns
unchanged, then the addressed turn with the content of every text part
replaced by `t` (a fresh text part is inserted first when no text part
exists; non-text parts are preserved), so element `k` has a text part
equal to `t`; every later turn is discarded. -/
theorem applyEdit_behavior (log : List ChatMessage) (k : Nat) (t : Str)
    (h : k < log.length) (hu : (log.get ⟨k, h⟩).role = Role.user) :
    (applyEdit log k t).length = k + 1 ∧
    (applyEdit log k t).take k = log.take k ∧
    ∃ ps : List Part,
      applyEdit log k t = log.take k ++ [{ role := Role.user, parts := ps }] ∧
      (∃ p ∈ ps, p.text = some t) ∧
      (if (log.get ⟨k, h⟩).parts.any (fun p => p.text.isSome) then
        ps = (log.get ⟨k, h⟩).parts.map
          (fun p => if p.text.isSome then { p with text := some t } else p)
      else
        ps = { text := some t, plans2D := none, plan3D := none } ::
          (log.get ⟨k, h⟩).parts) := by
  have key : applyEdit log k t =
      log.take k ++
        [{ role := (log.get ⟨k, h⟩).role,
           parts := applyEditToParts (log.get ⟨k, h⟩).parts t }] := by
    unfold applyEdit
    rw [modifyAt_take (fun m => { m with parts := applyEditToParts m.parts t }) log k h]
  have hlen : (log.take k).length = k := by
    simp [List.length_take, Nat.min_eq_left h.le]
  refine ⟨?_, ?_, ?_⟩
  · rw [key]
    simp [hlen]
  · rw [key]
    exact List.take_left' hlen
  · refine ⟨applyEditToParts (log.get ⟨k, h⟩).parts t, ?_, ?_, ?_⟩
    · rw [key, hu]
    · unfold applyEditToParts
      by_cases hany : (log.get ⟨k, h⟩).parts.any (fun p => p.text.isSome) = true
      · rw [if_pos hany]
        obtain ⟨p0, hp0, hsome⟩ := List.any_eq_true.mp hany
        refine ⟨{ p0 with text := some t }, ?_, rfl⟩
        exact List.mem_map.mpr ⟨p0, hp0, by rw [if_pos hsome]⟩
      · rw [if_neg hany]
        exact ⟨{ text := some t }, by simp, rfl⟩
    · unfold applyEditToParts
      by_cases hany : (log.get ⟨k, h⟩).parts.any (fun p => p.text.isSome) = true
      · rw [if_pos hany, if_pos hany]
      · rw [if_neg hany, if_neg hany]
        have hall := List.any_eq_false.mp (Bool.not_eq_true _ |>.mp hany)
        have h1 : (log.get ⟨k, h⟩).parts.map
            (fun p => if p.text.isSome then { p with text := some t } else p) =
            (log.get ⟨k, h⟩).parts.map id := by
          refine List.map_congr_left ?_
          intro p hp
          rw [if_neg (by simpa using hall p hp)]
          rfl
        rw [h1, List.map_id]

/-- Closed instance of `applyEdit_behavior` at a one-turn log. -/
theorem applyEdit_behavior_witness :
    (applyEdit [{ role := Role.user, parts := [{ text := some (("x").data) }] }]
      0 (("y").data)).length = 0 + 1 :=
  (applyEdit_behavior
    [{ role := Role.user, parts := [{ text := some (("x").data) }] }]
    0 (("y").data) (by decide) (by decide)).1

/-- Splitting at the first comma of a comma-free prefix. -/
theorem splitOnComma_append_comma (xs ys : Str) (h : ',' ∉ xs) :
    splitOnComma (xs ++ ',' :: ys) = xs :: splitOnComma ys := by
  induction xs with
  | nil => simp [splitOnComma]
  | cons c cs ih =>
    have hc : c ≠ ',' := fun he => h (he ▸ List.mem_cons_self c cs)
    have hcs : ',' ∉ cs := fun hm => h (List.mem_cons_of_mem c hm)
    simp only [List.cons_append, splitOnComma, if_neg hc, List.append_eq, ih hcs]

/-- A comma-free string splits into itself alone. -/
theorem splitOnComma_eq_single (p : Str) (h : ',' ∉ p) : splitOnComma p = [p] := by
  induction p with
  | nil => rfl
  | cons c cs ih =>
    have hc : c ≠ ',' := fun he => h (he ▸ List.mem_cons_self c cs)
    simp only [splitOnComma, if_neg hc, ih (fun hm => h (List.mem_cons_of_mem c hm))]

/-- The lazy capture on a clean token followed by `;` returns the token. -/
theorem lazyCapture_clean (m : Str) (r : Str)
    (h : ∀ c ∈ m, c ≠ ';' ∧ isLineTerminator c = false) :
    lazyCapture (m ++ ';' :: r) = some m := by
  induction m with
  | nil => simp [lazyCapture]
  | cons c cs ih =>
    obtain ⟨h1, h2⟩ := h c (List.mem_cons_self c cs)
    have ih2 := ih (fun d hd => h d (List.mem_cons_of_mem c hd))
    simp [lazyCapture, if_neg h1, h2, ih2]

/-- Regex scan skips a non-colon head character. -/
theorem matchColonSemi_cons_ne (c : Char) (rest : Str) (hc : c ≠ ':') :
    matchColonSemi (c :: rest) = matchColonSemi rest := by
  simp [matchColonSemi, hc]

/-- Regex scan succeeds at a colon whose tail has a capture. -/
theorem matchColonSemi_colon (rest tok : Str) (h : lazyCapture rest = some tok) :
    matchColonSemi (':' :: rest) = some tok := by
  simp [matchColonSemi, h]

/-- MIME extraction on a well-formed `data:` header returns the MIME
string. -/
theorem matchColonSemi_data_header (m : Str)
    (h : ∀ c ∈ m, c ≠ ';' ∧ isLineTerminator c = false) :
    matchColonSemi (("data:").data ++ m ++ (";base64").data) = some m := by
  show matchColonSemi
    ('d' :: 'a' :: 't' :: 'a' :: ':' :: (m ++ (';' :: ("base64").data))) = some m
  rw [matchColonSemi_cons_ne 'd' _ (by decide), matchColonSemi_cons_ne 'a' _ (by decide),
    matchColonSemi_cons_ne 't' _ (by decide), matchColonSemi_cons_ne 'a' _ (by decide)]
  exact matchColonSemi_colon _ m (lazyCapture_clean m _ h)

/-- C5: decoding an encoded handle returns the original pair —
`dataURLtoBase64 (encodeDataURL m p) = (m, p)` for every nonempty
MIME type `m` (over MIME-admissible characters) and nonempty base64
payload `p`. -/
theorem decode_encode_roundtrip (m p : Str) (hm : mimeTypeOK m)
    (hp : base64PayloadOK p) :
    dataURLtoBase64 (encodeDataURL m p) = (m, p) := by
  obtain ⟨hm0, hmc⟩ := hm
  obtain ⟨hp0, hpc⟩ := hp
  have hpcomma : ',' ∉ p := by
    intro hmem
    have h1 := hpc ',' hmem
    have h2 : isBase64Char ',' = false := by decide
    rw [h2] at h1
    exact Bool.false_ne_true h1
  have hheader : ',' ∉ ("data:").data ++ m ++ (";base64").data := by
    intro hmem
    rcases List.mem_append.mp hmem with hmem1 | hmem2
    · rcases List.mem_append.mp hmem1 with hl | hmm
      · simp at hl
      · exact (hmc ',' hmm).2.1 rfl
    · simp at hmem2
  have hshape : encodeDataURL m p =
      (("data:").data ++ m ++ (";base64").data) ++ (',' :: p) := by
    have hcomma : (";base64,").data = (";base64").data ++ [','] := rfl
    unfold encodeDataURL
    rw [hcomma]
    simp [List.append_assoc]
  have hsplit : splitOnComma (encodeDataURL m p) =
      [("data:").data ++ m ++ (";base64").data, p] := by
    rw [hshape, splitOnComma_append_comma _ _ hheader, splitOnComma_eq_single p hpcomma]
  have hmatch := matchColonSemi_data_header m (fun c hc =>
    ⟨(hmc c hc).1, (hmc c hc).2.2⟩)
  unfold dataURLtoBase64
  rw [hsplit]
  simp only [List.append_eq]
  rw [show matchColonSemi
    (['d', 'a', 't', 'a', ':'] ++ m ++ [';', 'b', 'a', 's', 'e', '6', '4']) =
    some m from hmatch]

/-- Closed instance of `decode_encode_roundtrip` at a concrete MIME
type and payload. -/
theorem decode_encode_roundtrip_witness :
    dataURLtoBase64 (encodeDataURL (("image/png").data) (("QUJD").data)) =
      ((("image/png").data), (("QUJD").data)) :=
  decode_encode_roundtrip (("image/png").data) (("QUJD").data)
    (by constructor
        · decide
        · decide)
    (by constructor
        · decide
        · decide)

/-- A successful lazy capture decomposes its input as the clean token,
the delimiter and a remainder. -/
theorem lazyCapture_some_decomp :
    ∀ (r tok : Str), lazyCapture r = some tok →
    ∃ post, r = tok ++ ';' :: post ∧
      ∀ c ∈ tok, c ≠ ';' ∧ isLineTerminator c = false := by
  intro r
  induction r with
  | nil => intro tok h; simp [lazyCapture] at h
  | cons c cs ih =>
    intro tok h
    by_cases hc : c = ';'
    · subst hc
      simp [lazyCapture] at h
      subst h
      exact ⟨cs, rfl, by simp⟩
    · by_cases ht : isLineTerminator c = true
      · simp [lazyCapture, hc, ht] at h
      · have ht2 : isLineTerminator c = false := Bool.not_eq_true _ |>.mp ht
        simp only [lazyCapture, if_neg hc, ht2, Bool.false_eq_true, if_false] at h
        obtain ⟨tok2, htok2, hcons⟩ := Option.map_eq_some'.mp h
        obtain ⟨post, hdec, hclean⟩ := ih tok2 htok2
        refine ⟨post, ?_, ?_⟩
        · rw [← hcons, hdec]
          rfl
        · intro d hd
          rw [← hcons] at hd
          rcases List.mem_cons.mp hd with hd1 | hd2
          · subst hd1
            exact ⟨hc, ht2⟩
          · exact hclean d hd2

/-- A successful MIME match means the header holds a token between `:`
and `;`. -/
theorem matchColonSemi_some_hasToken :
    ∀ (l tok : Str), matchColonSemi l = some tok → headerHasMimeToken l := by
  intro l
  induction l with
  | nil => intro tok h; simp [matchColonSemi] at h
  | cons c cs ih =>
    intro tok h
    by_cases hc : c = ':'
    · subst hc
      rw [matchColonSemi, if_pos rfl] at h
      cases hl : lazyCapture cs with
      | some tok2 =>
        obtain ⟨post, hdec, hclean⟩ := lazyCapture_some_decomp cs tok2 hl
        exact ⟨[], tok2, post, by rw [hdec]; rfl, hclean⟩
      | none =>
        rw [hl] at h
        obtain ⟨pre, mid, post, hdec, hclean⟩ := ih tok h
        exact ⟨':' :: pre, mid, post, by rw [hdec]; rfl, hclean⟩
    · rw [matchColonSemi, if_neg hc] at h
      obtain ⟨pre, mid, post, hdec, hclean⟩ := ih tok h
      exact ⟨c :: pre, mid, post, by rw [hdec]; rfl, hclean⟩

/-- A header holding a MIME token contains a colon (used to refute
`headerHasMimeToken` on concrete inputs). -/
theorem headerHasMimeToken_colon_mem (l : Str) :
    headerHasMimeToken l → ':' ∈ l := by
  rintro ⟨pre, mid, post, hdec, -⟩
  subst hdec
  simp

/-- An image whose decode fails (empty MIME or payload) contributes no
outgoing part. -/
theorem imagePartOfDataURL_eq_nil (url : Str)
    (h : (dataURLtoBase64 url).1 = [] ∨ (dataURLtoBase64 url).2 = []) :
    imagePartOfDataURL url = [] := by
  unfold imagePartOfDataURL
  rw [if_neg]
  rintro ⟨h1, h2⟩
  rcases h with h | h
  · exact h1 h
  · exact h2 h

/-- C10: the handle decoder is total (a structurally recursive Lean
function) and returns the empty pair on every input with fewer than two
comma segments and on every input whose header holds no token between
`:` and `;`; a send whose uploaded image fails to decode silently omits
the image from the outgoing parts and still issues the request. -/
theorem decoder_failure_silent :
    (∀ s : Str, (splitOnComma s).length < 2 → dataURLtoBase64 s = ([], [])) ∧
    (∀ (s a : Str) (rest : List Str), splitOnComma s = a :: rest →
      ¬ headerHasMimeToken a → dataURLtoBase64 s = ([], [])) ∧
    (∀ url : Str, (dataURLtoBase64 url).1 = [] ∨ (dataURLtoBase64 url).2 = [] →
      imagePartOfDataURL url = []) ∧
    (∀ (s : AppState) (img : Str) (o : GenOutcome),
      s.isLoading = false → s.editingMessageIndex = none →
      s.replyingToMessage = none → s.uploadedImage = some img →
      (dataURLtoBase64 img).1 = [] ∨ (dataURLtoBase64 img).2 = [] →
      ∃ req : GenRequest, (handleSendMessage s o).2 = some req ∧
        req.parts = (if trimStr s.inputValue ≠ []
          then [GPart.text (trimStr s.inputValue)] else [])) := by
  refine ⟨?_, ?_, imagePartOfDataURL_eq_nil, ?_⟩
  · intro s h
    unfold dataURLtoBase64
    cases hs : splitOnComma s with
    | nil => rfl
    | cons a rest =>
      cases rest with
      | nil => rfl
      | cons b r2 =>
        rw [hs] at h
        simp at h
        omega
  · intro s a rest hs hno
    unfold dataURLtoBase64
    rw [hs]
    cases rest with
    | nil => rfl
    | cons b r2 =>
      cases hm : matchColonSemi a with
      | some tok => exact absurd (matchColonSemi_some_hasToken a tok hm) hno
      | none => simp [hm]
  · intro s img o h1 h2 h3 h4 hfail
    have hcond : ¬ ((trimStr s.inputValue = [] ∧ s.uploadedImage = none ∧
        s.editingMessageIndex.isSome = false) ∨ s.isLoading = true) := by
      rintro (⟨-, g2, -⟩ | g)
      · rw [h4] at g2
        exact Option.some_ne_none img g2
      · rw [h1] at g
        exact Bool.false_ne_true g
    have hparts : buildGeminiParts (trimStr s.inputValue) s.uploadedImage
        s.replyingToMessage =
        (if trimStr s.inputValue ≠ [] then [GPart.text (trimStr s.inputValue)] else []) := by
      unfold buildGeminiParts
      rw [h4, h3]
      simp [imagePartOfDataURL_eq_nil img hfail]
    have hedit : s.editingMessageIndex.isSome = false := by rw [h2]; rfl
    unfold handleSendMessage
    rw [if_neg hcond, hedit]
    match o with
    | GenOutcome.threw =>
      exact ⟨_, rfl, by simp [hparts]⟩
    | GenOutcome.ok [] =>
      exact ⟨_, rfl, by simp [hparts]⟩
    | GenOutcome.ok (first :: _) =>
      exact ⟨_, rfl, by simp [hparts]⟩

/-- Closed instances of `decoder_failure_silent`: a comma-free input, a
header without a colon, the silent omission for such an input, and a
send with an undecodable upload. -/
theorem decoder_failure_silent_witness :
    dataURLtoBase64 (("nocomma").data) = ([], []) ∧
    dataURLtoBase64 (("abc,def").data) = ([], []) ∧
    imagePartOfDataURL (("abc,def").data) = [] ∧
    ∃ req : GenRequest,
      (handleSendMessage { freshState with uploadedImage := some (("abc,def").data) }
        GenOutcome.threw).2 = some req ∧
      req.parts = (if trimStr (([]) : Str) ≠ []
        then [GPart.text (trimStr (([]) : Str))] else []) := by
  refine ⟨?_, ?_, ?_, ?_⟩
  · exact decoder_failure_silent.1 (("nocomma").data) (by decide)
  · exact decoder_failure_silent.2.1 (("abc,def").data) (("abc").data) [("def").data]
      (by decide)
      (fun h => absurd (headerHasMimeToken_colon_mem _ h) (by decide))
  · exact decoder_failure_silent.2.2.1 (("abc,def").data) (by decide)
  · exact decoder_failure_silent.2.2.2
      { freshState with uploadedImage := some (("abc,def").data) }
      (("abc,def").data) GenOutcome.threw rfl rfl rfl rfl (by decide)

end QbitArchitect
